import Mathlib

/-!
Verification of the kunai userland event pipeline (`src/kunai/src/bin/main.rs`)
against its natural-language specification.

The Rust code is shallowly embedded: `std::collections::HashMap` becomes an
association list with replace-on-insert semantics (`Mp.*`), the Producer's
shared state (pipe, batch counter, sender channel) becomes an explicit
`EventProducer` record threaded through the reader/reducer steps, and the
Consumer state becomes an `EventConsumer` record.  External crates that the
spec declares out of scope (gene engine, hash computation, procfs, container
heuristics) appear as abstract function fields or records modelled from the
spec's interface descriptions; each such definition is marked in its doc
comment.
-/

set_option linter.unusedVariables false

namespace Kunai

/-! ### Association-list model of `std::collections::HashMap` -/

namespace Mp

/-- `HashMap::get`: first binding for the key, if any. -/
def find {α β : Type} [DecidableEq α] : List (α × β) → α → Option β
  | [], _ => none
  | (k, v) :: t, a => if k = a then some v else find t a

/-- `HashMap::insert` / `entry(..).and_modify(..).or_insert(..)`:
replace the binding if present, otherwise append a fresh one. -/
def put {α β : Type} [DecidableEq α] : List (α × β) → α → β → List (α × β)
  | [], a, b => [(a, b)]
  | (k, v) :: t, a, b => if k = a then (a, b) :: t else (k, v) :: put t a b

/-- `HashMap::remove`: drop any binding for the key. -/
def del {α β : Type} [DecidableEq α] : List (α × β) → α → List (α × β)
  | [], _ => []
  | (k, v) :: t, a => if k = a then del t a else (k, v) :: del t a

/-- `get_mut(..).map(f)` / `entry(..).and_modify(f)`: update the value in
place when the key is bound, otherwise leave the map untouched. -/
def modify {α β : Type} [DecidableEq α] (m : List (α × β)) (a : α) (f : β → β) :
    List (α × β) :=
  match find m a with
  | some v => put m a (f v)
  | none => m

theorem find_put_self {α β : Type} [DecidableEq α] (m : List (α × β)) (a : α) (b : β) :
    find (put m a b) a = some b := by
  induction m with
  | nil => simp [put, find]
  | cons h t ih =>
      obtain ⟨k, v⟩ := h
      by_cases hk : k = a
      · simp [put, hk, find]
      · simp [put, hk, find, ih]

theorem find_put_ne {α β : Type} [DecidableEq α] (m : List (α × β)) (a c : α) (b : β)
    (h : a ≠ c) : find (put m a b) c = find m c := by
  induction m with
  | nil => simp [put, find, h]
  | cons hd t ih =>
      obtain ⟨k, v⟩ := hd
      by_cases hk : k = a
      · subst hk
        simp [put, find, h]
      · simp [put, hk, find, ih]

theorem find_del_self {α β : Type} [DecidableEq α] (m : List (α × β)) (a : α) :
    find (del m a) a = none := by
  induction m with
  | nil => simp [del, find]
  | cons hd t ih =>
      obtain ⟨k, v⟩ := hd
      by_cases hk : k = a
      · simp [del, hk, ih]
      · simp [del, hk, find, ih]

theorem find_del_ne {α β : Type} [DecidableEq α] (m : List (α × β)) (a c : α)
    (h : a ≠ c) : find (del m a) c = find m c := by
  induction m with
  | nil => simp [del]
  | cons hd t ih =>
      obtain ⟨k, v⟩ := hd
      by_cases hk : k = a
      · subst hk
        simp [del, find, h, ih]
      · simp [del, hk, find, ih]

theorem find_modify_self {α β : Type} [DecidableEq α] (m : List (α × β)) (a : α)
    (f : β → β) (v : β) (h : find m a = some v) :
    find (modify m a f) a = some (f v) := by
  simp only [modify, h]
  exact find_put_self m a (f v)

theorem find_modify_ne {α β : Type} [DecidableEq α] (m : List (α × β)) (a c : α)
    (f : β → β) (h : a ≠ c) : find (modify m a f) c = find m c := by
  unfold modify
  cases hf : find m a with
  | none => rfl
  | some v => exact find_put_ne m a c (f v) h

theorem modify_absent {α β : Type} [DecidableEq α] (m : List (α × β)) (a : α)
    (f : β → β) (h : find m a = none) : modify m a f = m := by
  simp [modify, h]

end Mp

/-! ### Event data model (`kunai_common::bpf_events`) -/

/-- `bpf_events::Type`, the event-type discriminant.  (Named `EvType` because
`Type` is reserved in Lean.)  Variant list taken from the dispatch in
`EventConsumer::handle_event`. -/
inductive EvType where
  | Unknown
  | Execve
  | ExecveScript
  | TaskSched
  | Clone
  | Prctl
  | MmapExec
  | MprotectExec
  | Connect
  | DnsQuery
  | SendData
  | InitModule
  | WriteConfig
  | Write
  | ReadConfig
  | Read
  | FileUnlink
  | FileRename
  | BpfProgLoad
  | BpfSocketFilter
  | Exit
  | ExitGroup
  | Correlation
  | CacheHash
  | Error
  | SyscoreResume
  | EndEvents
  | Max
deriving DecidableEq

/-- `bpf_events::error::Level` used by Error events. -/
inductive ErrLevel where
  | Warn
  | Error
deriving DecidableEq

/-- IP addresses are only compared for equality by the code under scrutiny,
so they are modelled as an abstract discrete identifier. -/
abbrev IpAddr := Nat

/-- Process description inside the event header (`EventInfo.process`).
`tg_uuid`/`parent_uuid` model the kernel-assigned 128-bit task uuids; the
parent key fields model how `StdEventInfo::parent_key` addresses the parent
task (spec section 3: a TaskKey is the pair (tgid, task uuid)). -/
structure ProcessInfo where
  pid : Int
  tgid : Int
  flags : Nat
  tg_uuid : Nat
  parent_tgid : Int
  parent_uuid : Nat
  mnt_namespace : Option Nat
deriving DecidableEq

/-- `PF_KTHREAD` test on the header flags (flag value 0x00200000). -/
def ProcessInfo.is_kernel_thread (p : ProcessInfo) : Bool :=
  p.flags &&& 0x00200000 == 0x00200000

/-- Event header (`bpf_events::EventInfo`): type tag, monotonic timestamp,
userland-assigned batch number and the process description. -/
structure EventInfo where
  etype : EvType
  timestamp : Nat
  batch : Nat
  process : ProcessInfo
deriving DecidableEq

/-- Typed payloads of the events the pipeline inspects.  Events whose payload
never influences the verified properties are represented by `generic`. -/
inductive Payload where
  | execve (executable interpreter : String) (argv : List String)
      (cgroup : String) (cgroupError : Option String) (nodename : Option String)
  | cloneEv (executable : String) (argv : List String) (flags : Nat)
      (cgroup : String) (cgroupError : Option String) (nodename : Option String)
  | mmapExec (filename : String)
  | correlation (origin : EvType) (exe : String) (argv : List String)
      (cgroup : String) (cgroupError : Option String) (nodename : Option String)
  | hash (path : String)
  | config (path : String)
  | exitEv (error_code : Nat)
  | errorEv (level : ErrLevel)
  | generic
deriving DecidableEq

/-- `EncodedEvent`: header plus typed payload.  In the model every record
decodes; the Rust code drops undecodable records before they enter the
pipe, so decodable records are the only ones the verified code paths see. -/
structure EncodedEvent where
  info : EventInfo
  payload : Payload
deriving DecidableEq

/-- `TaskKey`: pair (tgid, kernel task uuid) uniquely identifying a process
(`kunai::info::TaskKey`; shape given by spec section 3). -/
structure TaskKey where
  tgid : Int
  uuid : Nat
deriving DecidableEq

/-- Lineage record (`Task` struct in main.rs).  `container` holds the
container-type tag as an abstract string. -/
structure Task where
  image : String
  command_line : List String
  pid : Int
  flags : Nat
  resolved : List (IpAddr × String)
  container : Option String
  cgroups : List String
  nodename : Option String
  parent_key : Option TaskKey
deriving DecidableEq

/-- `Task::is_kthread`: flags contain PF_KTHREAD (0x00200000). -/
def Task.is_kthread (t : Task) : Bool :=
  t.flags &&& 0x00200000 == 0x00200000

/-- `Task::command_line_string`: argv joined by single spaces. -/
def Task.command_line_string (t : Task) : String :=
  String.intercalate " " t.command_line

/-- `Task::free_memory`: empty the resolved map, keep everything else. -/
def Task.free_memory (t : Task) : Task :=
  { t with resolved := [] }

/-- The literal used for kernel-thread images (`KERNEL_IMAGE`). -/
def KERNEL_IMAGE : String := "kernel"

/-! ### Consumer-side data model -/

/-- File hashes record (`kunai::cache::Hashes`).  The digest values are
computed by external hash implementations the spec puts out of scope; the
model keeps the file path and the error slot, which is all the pipeline
logic inspects. -/
structure Hashes where
  file : String
  error : Option String
deriving DecidableEq

/-- Modelled from the spec: `ScanResult` lives in the kunai events module,
which is outside the provided source.  Spec section 4.7: `is_detection()` is
true if any non-filter rule matched or any IoC matched; `is_only_filter()`
is true iff all matched rules are filter-kind (at least one matched) and no
IoC matched.  `rules` holds non-filter matches, `filters` filter-kind
matches. -/
structure ScanResult where
  rules : List String
  filters : List String
  iocs : List String
  severity : Nat
deriving DecidableEq

/-- `ScanResult::default()`: nothing matched yet. -/
def ScanResult.default : ScanResult :=
  { rules := [], filters := [], iocs := [], severity := 0 }

/-- `ScanResult::is_detection`. -/
def ScanResult.is_detection (sr : ScanResult) : Bool :=
  !sr.rules.isEmpty || !sr.iocs.isEmpty

/-- `ScanResult::is_only_filter`. -/
def ScanResult.is_only_filter (sr : ScanResult) : Bool :=
  sr.rules.isEmpty && !sr.filters.isEmpty && sr.iocs.isEmpty

/-- Modelled from the spec: `gene::rules::MAX_SEVERITY`, the maximal rule
severity, equal to 10. -/
def MAX_SEVERITY : Nat := 10

/-- Black-box view of the `gene::Engine` rules engine (out of scope per the
spec): emptiness plus an arbitrary per-event scan outcome.  The engine may
error; the code logs and keeps the partial result either way, so both paths
collapse to `Option ScanResult`. -/
structure Engine where
  isEmpty : Bool
  scanEvent : EvType → List String → Option ScanResult

/-- `EventConsumer` state: system info, engine, IoC set, caches, task table,
global DNS map.  The JSON output file is represented by the lists of emitted
events the handlers return.  `procfsCgroups`, `containerFromCgroups` and
`containerFromAncestors` model the external procfs / `Container` helpers as
abstract environment functions. -/
structure EventConsumer where
  selfPid : Int
  hostname : String
  hostUuid : Nat
  hostMountNs : Nat
  engine : Engine
  iocs : List String
  random : Nat
  hashCache : List ((Nat × String) × Hashes)
  nsCache : List (Int × Nat)
  tasks : List (TaskKey × Task)
  resolved : List (IpAddr × String)
  procfsCgroups : Int → Option (List String)
  containerFromCgroups : List String → Option String
  containerFromAncestors : List String → Option String

/-- `StdEventInfo`: the decoded header plus host/container additional info
(`kunai::info`, shape from spec sections 3 and 4.6). -/
structure StdEventInfo where
  info : EventInfo
  hostName : String
  hostUuid : Nat
  container : Option (String × Option String)

/-- Modelled from the spec: `StdEventInfo::task_key` returns the TaskKey
pair (tgid, task uuid) of the event's own process. -/
def taskKeyOf (i : EventInfo) : TaskKey :=
  { tgid := i.process.tgid, uuid := i.process.tg_uuid }

/-- Modelled from the spec: `StdEventInfo::parent_key` addresses the parent
task by its TaskKey. -/
def parentKeyOf (i : EventInfo) : TaskKey :=
  { tgid := i.process.parent_tgid, uuid := i.process.parent_uuid }

/-- Finishing step of `EventConsumer::get_ancestors`: if the oldest ancestor
reached is neither pid 1 nor a kernel thread, prepend `?` to flag lineage
truncation. -/
def finishAncestors (acc : List String) (last : Option Task) : List String :=
  match last with
  | some t => if t.pid ≠ 1 && !t.is_kthread then "?" :: acc else acc
  | none => acc

/-- Loop body of `EventConsumer::get_ancestors`.  The Rust loop
`while let Some(task) = self.tasks.get(&parent)` has no depth bound; the
model adds explicit fuel, and returns `none` exactly when the fuel runs out
while the Rust loop would still be iterating. -/
def ancestorsLoop : Nat → List (TaskKey × Task) → TaskKey → List String →
    Option Task → Option (List String)
  | 0, _, _, _, _ => none
  | fuel + 1, tasks, parent, acc, last =>
    match Mp.find tasks parent with
    | none => some (finishAncestors acc last)
    | some task =>
      let acc2 := task.image :: acc
      match task.parent_key with
      | some v => ancestorsLoop fuel tasks v acc2 (some task)
      | none => some (finishAncestors acc2 (some task))

/-- `EventConsumer::get_ancestors` with explicit fuel (see `ancestorsLoop`). -/
def get_ancestors (fuel : Nat) (tasks : List (TaskKey × Task)) (parent : TaskKey) :
    Option (List String) :=
  ancestorsLoop fuel tasks parent [] none

/-- Total wrapper used by the consumer paths that call `get_ancestors`.
On forest-shaped tables (the source's operating assumption, proven
sufficient in the termination theorem) fuel `|tasks| + 1` always completes;
on a cyclic table, where the Rust loop would not terminate, the wrapper
returns `[]`. -/
def getAncestorsList (c : EventConsumer) (parent : TaskKey) : List String :=
  (get_ancestors (c.tasks.length + 1) c.tasks parent).getD []

/-- `EventConsumer::get_exe`. -/
def get_exe (c : EventConsumer) (key : TaskKey) : String :=
  match Mp.find c.tasks key with
  | some task => task.image
  | none => "?"

/-- `EventConsumer::get_command_line`. -/
def get_command_line (c : EventConsumer) (key : TaskKey) : String :=
  match Mp.find c.tasks key with
  | some t => t.command_line_string
  | none => "?"

/-- `EventConsumer::get_ancestors_string`. -/
def get_ancestors_string (c : EventConsumer) (i : StdEventInfo) : String :=
  String.intercalate "|" (getAncestorsList c (parentKeyOf i.info))

/-- `EventConsumer::get_parent_image`. -/
def get_parent_image (c : EventConsumer) (i : StdEventInfo) : String :=
  match Mp.find c.tasks (parentKeyOf i.info) with
  | some t => t.image
  | none => "?"

/-- `EventConsumer::update_resolved`: write the resolution into the
task-local map when the task exists (`get_mut(..).map(..)`), and always into
the global map; both writes are last-write-wins. -/
def update_resolved (c : EventConsumer) (ip : IpAddr) (resolved : String)
    (i : StdEventInfo) : EventConsumer :=
  let ck := taskKeyOf i.info
  { c with
    tasks := Mp.modify c.tasks ck
      (fun t => { t with resolved := Mp.put t.resolved ip resolved }),
    resolved := Mp.put c.resolved ip resolved }

/-- `EventConsumer::get_resolved`: task-local map first, then the global
map, then the literal `?`. -/
def get_resolved (c : EventConsumer) (ip : IpAddr) (i : StdEventInfo) : String :=
  let ck := taskKeyOf i.info
  match (Mp.find c.tasks ck).bind (fun t => Mp.find t.resolved ip) with
  | some domain => domain
  | none =>
    match Mp.find c.resolved ip with
    | some domain => domain
    | none => "?"

/-- `EventConsumer::get_hashes_with_ns`: on a known namespace consult the
hash cache, computing on miss (digest computation itself is external); on an
unknown namespace return a `Hashes` with the error slot set. -/
def getHashesWithNs (c : EventConsumer) (ns : Option Nat) (p : String) :
    EventConsumer × Hashes :=
  match ns with
  | some n =>
    match Mp.find c.hashCache (n, p) with
    | some h => (c, h)
    | none =>
      let h : Hashes := { file := p, error := none }
      ({ c with hashCache := Mp.put c.hashCache (n, p) h }, h)
  | none => (c, { file := p, error := some "unknown namespace" })

/-- `EventConsumer::build_std_event_info`: attach host identity and, when
the event's mount namespace differs from the daemon's own, container
identity resolved from the task table. -/
def buildStdEventInfo (c : EventConsumer) (i : EventInfo) : StdEventInfo :=
  let cd := Mp.find c.tasks (taskKeyOf i)
  let container :=
    match i.process.mnt_namespace with
    | some mnt =>
      if mnt ≠ c.hostMountNs then
        some ((cd.bind Task.nodename).getD "?", cd.bind Task.container)
      else none
    | none => none
  { info := i, hostName := c.hostname, hostUuid := c.hostUuid,
    container := container }

/-- The payload of a `CorrelationEvent` (fields read by
`handle_correlation_event`). -/
structure CorrelationData where
  origin : EvType
  exe : String
  argv : List String
  cgroup : String
  cgroupError : Option String
  nodename : Option String
deriving DecidableEq

/-- `EventConsumer::handle_correlation_event`: an Execve/ExecveScript origin
removes any prior record for the key; an existing record only gets its
missing nodename fixed; otherwise a fresh record is inserted, resolving
cgroups (procfs fallback on a kernel-side parse error) and container type,
with image forced to `kernel` for kernel threads. -/
def handleCorrelationEvent (c : EventConsumer) (info : StdEventInfo)
    (cd : CorrelationData) : EventConsumer :=
  let ck := taskKeyOf info.info
  let tasks :=
    if cd.origin = EvType.Execve ∨ cd.origin = EvType.ExecveScript then
      Mp.del c.tasks ck
    else c.tasks
  let c := { c with tasks := tasks }
  match Mp.find c.tasks ck with
  | some v =>
    if v.nodename.isNone then
      { c with tasks := Mp.put c.tasks ck { v with nodename := cd.nodename } }
    else c
  | none =>
    let cgroups :=
      match cd.cgroupError with
      | none => [cd.cgroup]
      | some _ =>
        match c.procfsCgroups info.info.process.pid with
        | some cgs => cgs
        | none => [cd.cgroup]
    let ct0 := c.containerFromCgroups cgroups
    let ct :=
      match ct0 with
      | some t => some t
      | none => c.containerFromAncestors (getAncestorsList c (parentKeyOf info.info))
    let image :=
      if info.info.process.is_kernel_thread then KERNEL_IMAGE else cd.exe
    let fresh : Task :=
      { image := image
        command_line := cd.argv
        pid := info.info.process.tgid
        flags := info.info.process.flags
        resolved := []
        container := ct
        cgroups := cgroups
        nodename := cd.nodename
        parent_key := some (parentKeyOf info.info) }
    { c with tasks := Mp.put c.tasks ck fresh }

/-! ### Scanner adapter and output -/

/-- Per-event payload of a serialized `UserEvent<T>` as far as the verified
properties observe it. -/
inductive EmittedData where
  | execveOut (ancestors parent_exe command_line : String)
      (exe : Hashes) (interpreter : Option Hashes)
  | cloneOut (ancestors exe command_line : String) (flags : Nat)
  | rwOut (ancestors command_line exe path : String)
  | exitOut (ancestors command_line exe : String) (error_code : Nat)
  | genericOut (ancestors command_line exe : String)
deriving DecidableEq

/-- One JSON line written to the output sink: the event header, the typed
payload, the extracted IoC strings (`KunaiEvent::iocs`, whose extraction
lives in the external events module; builders here leave it empty and the
scanner theorems quantify over arbitrary values), and the optional
`detection` field. -/
structure Emitted where
  info : EventInfo
  data : EmittedData
  iocs : List String
  detection : Option ScanResult
deriving DecidableEq

/-- `EventConsumer::scan`: run the engine if it has rules (errors are logged
and the partial result kept), compute the IoC strings of the event that are
in the loaded IoC set, and when any matched force a `ScanResult` carrying
exactly those IoCs with maximal severity. -/
def EventConsumer.scan (c : EventConsumer) (ev : Emitted) : Option ScanResult :=
  let sr0 : Option ScanResult :=
    if !c.engine.isEmpty then c.engine.scanEvent ev.info.etype ev.iocs else none
  let matching := ev.iocs.filter (fun ioc => decide (ioc ∈ c.iocs))
  if !matching.isEmpty then
    let base := sr0.getD ScanResult.default
    some { base with iocs := matching, severity := MAX_SEVERITY }
  else sr0

/-- `EventConsumer::scan_and_print`: with neither rules nor IoCs loaded,
serialize unconditionally; otherwise serialize detections (with the
`detection` field set) and filter-only matches, and drop the rest.  The
returned list holds the JSON lines written. -/
def scanAndPrint (c : EventConsumer) (ev : Emitted) : List Emitted :=
  if c.iocs.isEmpty && c.engine.isEmpty then [ev]
  else
    match c.scan ev with
    | some sr =>
      if sr.is_detection then [{ ev with detection := some sr }]
      else if sr.is_only_filter then [ev]
      else []
    | none => []

/-! ### Consumer event builders and dispatch -/

/-- `EventConsumer::execve_event`. -/
def execveEvent (c : EventConsumer) (info : StdEventInfo)
    (executable interpreter : String) (argv : List String) :
    EventConsumer × Emitted :=
  let ancestors := getAncestorsList c (parentKeyOf info.info)
  let parentExe := get_parent_image c info
  let r1 := getHashesWithNs c info.info.process.mnt_namespace executable
  let r2 :=
    if interpreter ≠ executable then
      let h := getHashesWithNs r1.1 info.info.process.mnt_namespace interpreter
      (h.1, some h.2)
    else (r1.1, none)
  (r2.1,
    { info := info.info
      data := EmittedData.execveOut (String.intercalate "|" ancestors) parentExe
        (String.intercalate " " argv) r1.2 r2.2
      iocs := []
      detection := none })

/-- `EventConsumer::clone_event`. -/
def cloneEvent (c : EventConsumer) (info : StdEventInfo) (executable : String)
    (argv : List String) (flags : Nat) : Emitted :=
  { info := info.info
    data := EmittedData.cloneOut (get_ancestors_string c info) executable
      (String.intercalate " " argv) flags
    iocs := []
    detection := none }

/-- `EventConsumer::rw_event` (WriteConfig / Write / ReadConfig / Read). -/
def rwEvent (c : EventConsumer) (info : StdEventInfo) (path : String) : Emitted :=
  { info := info.info
    data := EmittedData.rwOut (get_ancestors_string c info)
      (get_command_line c (taskKeyOf info.info)) (get_exe c (taskKeyOf info.info)) path
    iocs := []
    detection := none }

/-- `EventConsumer::exit_event`: build the exit record and, on `Exit` with
pid == tgid or on `ExitGroup`, empty the task's resolved map while keeping
the record. -/
def exitEvent (c : EventConsumer) (info : StdEventInfo) (errorCode : Nat) :
    EventConsumer × Emitted :=
  let ev : Emitted :=
    { info := info.info
      data := EmittedData.exitOut (get_ancestors_string c info)
        (get_command_line c (taskKeyOf info.info)) (get_exe c (taskKeyOf info.info))
        errorCode
      iocs := []
      detection := none }
  let cleanup :=
    (info.info.etype = EvType.Exit ∧ info.info.process.pid = info.info.process.tgid)
      ∨ info.info.etype = EvType.ExitGroup
  let c2 :=
    if cleanup then
      { c with tasks := Mp.modify c.tasks (taskKeyOf info.info) Task.free_memory }
    else c
  (c2, ev)

/-- Builder for the event types whose payload details no verified property
observes (prctl, mmap, mprotect, connect, dns, send_data, init_module,
unlink, rename, bpf events): ancestors, command line and exe enrichment
followed by serialization, like the per-type builders in the source. -/
def genericEvent (c : EventConsumer) (info : StdEventInfo) : Emitted :=
  { info := info.info
    data := EmittedData.genericOut (get_ancestors_string c info)
      (get_command_line c (taskKeyOf info.info)) (get_exe c (taskKeyOf info.info))
    iocs := []
    detection := none }

/-- Result of `EventConsumer::handle_event`: the new consumer state, the
JSON lines written, the log lines produced, and whether the handler
panicked (the `Type::Error` branch is a `panic!` in the source). -/
structure HandleResult where
  consumer : EventConsumer
  emitted : List Emitted
  logs : List String
  panicked : Bool

/-- Shared tail of the Execve / ExecveScript branch: correlation first, then
rebuild `StdEventInfo` from the fresh task data, then build and emit. -/
def execveFlow (c : EventConsumer) (stdInfo : StdEventInfo) (origin : EvType)
    (executable interpreter : String) (argv : List String) (cgroup : String)
    (cgroupError nodename : Option String) : HandleResult :=
  let cd : CorrelationData :=
    { origin := origin, exe := executable, argv := argv, cgroup := cgroup,
      cgroupError := cgroupError, nodename := nodename }
  let c := handleCorrelationEvent c stdInfo cd
  let stdInfo2 := buildStdEventInfo c stdInfo.info
  let r := execveEvent c stdInfo2 executable interpreter argv
  { consumer := r.1, emitted := scanAndPrint r.1 r.2, logs := [], panicked := false }

/-- `EventConsumer::handle_event`.  Faithful to the source: the own-process
check at the top only emits a debug log (the Rust `if` body has no
`return`), the namespace cache is updated, a `StdEventInfo` is built, and
the event is dispatched by type.  Payload/type mismatches model the decode
errors of the `event!` macro: log and skip. -/
def handleEvent (c0 : EventConsumer) (e : EncodedEvent) : HandleResult :=
  let i := e.info
  -- `if i.process.tgid as u32 == std::process::id() { debug!("skipping our event"); }`
  let logs0 := if i.process.tgid = c0.selfPid then ["skipping our event"] else []
  let c :=
    match i.process.mnt_namespace with
    | some ns => { c0 with nsCache := Mp.put c0.nsCache i.process.pid ns }
    | none => c0
  let stdInfo := buildStdEventInfo c i
  let r : HandleResult :=
    match i.etype, e.payload with
    | EvType.Unknown, _ =>
      { consumer := c, emitted := [], logs := ["Unknown event type"], panicked := false }
    | EvType.Max, _ => { consumer := c, emitted := [], logs := [], panicked := false }
    | EvType.EndEvents, _ => { consumer := c, emitted := [], logs := [], panicked := false }
    | EvType.TaskSched, _ => { consumer := c, emitted := [], logs := [], panicked := false }
    | EvType.Execve, Payload.execve ex interp argv cg cgErr nn =>
      execveFlow c stdInfo EvType.Execve ex interp argv cg cgErr nn
    | EvType.ExecveScript, Payload.execve ex interp argv cg cgErr nn =>
      execveFlow c stdInfo EvType.ExecveScript ex interp argv cg cgErr nn
    | EvType.Clone, Payload.cloneEv ex argv flags cg cgErr nn =>
      let cd : CorrelationData :=
        { origin := EvType.Clone, exe := ex, argv := argv, cgroup := cg,
          cgroupError := cgErr, nodename := nn }
      let c := handleCorrelationEvent c stdInfo cd
      let stdInfo2 := buildStdEventInfo c stdInfo.info
      let ev := cloneEvent c stdInfo2 ex argv flags
      { consumer := c, emitted := scanAndPrint c ev, logs := [], panicked := false }
    | EvType.WriteConfig, Payload.config p =>
      { consumer := c, emitted := scanAndPrint c (rwEvent c stdInfo p), logs := [],
        panicked := false }
    | EvType.Write, Payload.config p =>
      { consumer := c, emitted := scanAndPrint c (rwEvent c stdInfo p), logs := [],
        panicked := false }
    | EvType.ReadConfig, Payload.config p =>
      { consumer := c, emitted := scanAndPrint c (rwEvent c stdInfo p), logs := [],
        panicked := false }
    | EvType.Read, Payload.config p =>
      { consumer := c, emitted := scanAndPrint c (rwEvent c stdInfo p), logs := [],
        panicked := false }
    | EvType.Exit, Payload.exitEv code =>
      let r := exitEvent c stdInfo code
      { consumer := r.1, emitted := scanAndPrint r.1 r.2, logs := [], panicked := false }
    | EvType.ExitGroup, Payload.exitEv code =>
      let r := exitEvent c stdInfo code
      { consumer := r.1, emitted := scanAndPrint r.1 r.2, logs := [], panicked := false }
    | EvType.Correlation, Payload.correlation origin ex argv cg cgErr nn =>
      let cd : CorrelationData :=
        { origin := origin, exe := ex, argv := argv, cgroup := cg,
          cgroupError := cgErr, nodename := nn }
      { consumer := handleCorrelationEvent c stdInfo cd, emitted := [], logs := [],
        panicked := false }
    | EvType.CacheHash, Payload.hash p =>
      let r := getHashesWithNs c i.process.mnt_namespace p
      { consumer := r.1, emitted := [], logs := [], panicked := false }
    | EvType.Error, _ =>
      -- `Type::Error => panic!("error events should be processed earlier")`
      { consumer := c, emitted := [], logs := [], panicked := true }
    | EvType.SyscoreResume, _ =>
      { consumer := c, emitted := [], logs := [], panicked := false }
    | EvType.Prctl, Payload.generic =>
      { consumer := c, emitted := scanAndPrint c (genericEvent c stdInfo), logs := [],
        panicked := false }
    | EvType.MmapExec, Payload.mmapExec f =>
      let r := getHashesWithNs c i.process.mnt_namespace f
      { consumer := r.1, emitted := scanAndPrint r.1 (genericEvent r.1 stdInfo),
        logs := [], panicked := false }
    | EvType.MprotectExec, Payload.generic =>
      { consumer := c, emitted := scanAndPrint c (genericEvent c stdInfo), logs := [],
        panicked := false }
    | EvType.Connect, Payload.generic =>
      { consumer := c, emitted := scanAndPrint c (genericEvent c stdInfo), logs := [],
        panicked := false }
    | EvType.DnsQuery, Payload.generic =>
      { consumer := c, emitted := scanAndPrint c (genericEvent c stdInfo), logs := [],
        panicked := false }
    | EvType.SendData, Payload.generic =>
      { consumer := c, emitted := scanAndPrint c (genericEvent c stdInfo), logs := [],
        panicked := false }
    | EvType.InitModule, Payload.generic =>
      { consumer := c, emitted := scanAndPrint c (genericEvent c stdInfo), logs := [],
        panicked := false }
    | EvType.FileUnlink, Payload.generic =>
      { consumer := c, emitted := scanAndPrint c (genericEvent c stdInfo), logs := [],
        panicked := false }
    | EvType.FileRename, Payload.generic =>
      { consumer := c, emitted := scanAndPrint c (genericEvent c stdInfo), logs := [],
        panicked := false }
    | EvType.BpfProgLoad, Payload.generic =>
      { consumer := c, emitted := scanAndPrint c (genericEvent c stdInfo), logs := [],
        panicked := false }
    | EvType.BpfSocketFilter, Payload.generic =>
      { consumer := c, emitted := scanAndPrint c (genericEvent c stdInfo), logs := [],
        panicked := false }
    | _, _ =>
      { consumer := c, emitted := [], logs := ["failed to decode event"],
        panicked := false }
  { consumer := r.consumer, emitted := r.emitted, logs := logs0 ++ r.logs,
    panicked := r.panicked }

/-! ### Producer -/

/-- `EventProducer` state: the batch counter, the shared pipe, and the
events already sent on the channel to the Consumer (`sender`).  The BPF
maps, perf array and spawned task handles are external resources and carry
no pipeline logic. -/
structure EventProducer where
  batch : Nat
  pipe : List EncodedEvent
  sent : List EncodedEvent
  filter : EvType → Bool
  stop : Bool
  reload : Bool

/-- A fresh producer (`EventProducer::with_params`) with the given event
filter: empty pipe, batch 0, nothing sent, flags down. -/
def initProducer (f : EvType → Bool) : EventProducer :=
  { batch := 0, pipe := [], sent := [], filter := f, stop := false, reload := false }

/-- `optimal_page_count`: `c = (max_event_size * n_events) / page_size`,
then `2^(c.ilog2() + 1)`.  Rust `usize::ilog2` is the floor base-2
logarithm and panics on 0 (and the division panics on `page_size = 0`);
`Nat.log2`/`Nat.div` are total, so the model is only meaningful on inputs
where the Rust code does not panic. -/
def optimal_page_count (page_size max_event_size n_events : Nat) : Nat :=
  let c := max_event_size * n_events / page_size
  2 ^ (Nat.log2 c + 1)

/-- The page count as the SPEC words it (for comparison with the source's
`optimal_page_count`): `2^(⌈log2((max_event_size · n_events) / page_size)⌉ + 1)`,
"the next power of two above the required byte count, then doubled". -/
def specOptimalPageCount (page_size max_event_size n_events : Nat) : Nat :=
  let c := max_event_size * n_events / page_size
  2 ^ (Nat.clog 2 c + 1)

/-- Timestamp order on encoded events (`sort_unstable_by_key(|e| e.info().timestamp)`). -/
def tsLe (a b : EncodedEvent) : Prop :=
  a.info.timestamp ≤ b.info.timestamp

instance : DecidableRel tsLe := fun a b => Nat.decLe a.info.timestamp b.info.timestamp

instance : IsTotal EncodedEvent tsLe :=
  ⟨fun a b => Nat.le_total a.info.timestamp b.info.timestamp⟩

instance : IsTrans EncodedEvent tsLe :=
  ⟨fun _ _ _ hab hbc => Nat.le_trans hab hbc⟩

/-- The pipe sort by ascending timestamp.  The Rust sort is unstable, so the
order among equal timestamps is unspecified; insertion sort realizes one
admissible order. -/
def sortPipe (l : List EncodedEvent) : List EncodedEvent :=
  List.insertionSort tsLe l

/-- Index of the last (rightmost) event in the sorted pipe whose batch
differs from the current batch
(`.iter().enumerate().rev().find(..).map(|(i, _)| i)`). -/
def lastOtherBatchIdx (l : List EncodedEvent) (batch : Nat) : Option Nat :=
  (l.enum.reverse.find? (fun ie => ie.2.info.batch != batch)).map (fun ie => ie.1)

/-- `EventProducer::process_piped_events`: on a non-empty pipe, sort by
timestamp, locate the rightmost event of a previous batch
(`unwrap_or_default()` turns "not found" into index 0), and pop and send
that many + 1 events from the front. -/
def processPipedEvents (p : EventProducer) : EventProducer :=
  if p.pipe.isEmpty then p
  else
    let sorted := sortPipe p.pipe
    let indexFirst := (lastOtherBatchIdx sorted p.batch).getD 0
    let counter := indexFirst + 1
    { p with pipe := sorted.drop counter, sent := p.sent ++ sorted.take counter }

/-- Result of `EventProducer::process_time_critical`: the (possibly
modified) producer and event, and whether the event was consumed and must
not go further. -/
structure PTCResult where
  producer : EventProducer
  event : EncodedEvent
  consumed : Bool

/-- `EventProducer::process_time_critical`: relabel Execve as ExecveScript
when the interpreter differs from the executable; BpfProgLoad gets its
program hashes attached (the dump is external and does not change the
header); Error events are logged at their own level and consumed;
SyscoreResume sets the reload flag and is consumed. -/
def processTimeCritical (p : EventProducer) (e : EncodedEvent) : PTCResult :=
  match e.info.etype, e.payload with
  | EvType.Execve, Payload.execve ex interp argv cg cgErr nn =>
    if interp ≠ ex then
      { producer := p,
        event := { e with info := { e.info with etype := EvType.ExecveScript } },
        consumed := false }
    else { producer := p, event := e, consumed := false }
  | EvType.Error, _ => { producer := p, event := e, consumed := true }
  | EvType.SyscoreResume, _ =>
    { producer := { p with reload := true }, event := e, consumed := true }
  | _, _ => { producer := p, event := e, consumed := false }

/-- Modelled from the spec: the files referenced by an execve whose hashes
are requested — executable, interpreter when distinct, argv[0] when
absolute. -/
def execveHashPaths (executable interpreter : String) (argv : List String) :
    List String :=
  [executable]
    ++ (if interpreter ≠ executable then [interpreter] else [])
    ++ (match argv.head? with
        | some a0 => if a0.startsWith "/" then [a0] else []
        | none => [])

/-- Modelled from the spec: `HashEvent::all_from_execve` (external events
module) emits one `CacheHash` event per referenced file. -/
def hashEventsFromExecve (src : EncodedEvent) (executable interpreter : String)
    (argv : List String) : List EncodedEvent :=
  (execveHashPaths executable interpreter argv).map (fun p =>
    { info := { src.info with etype := EvType.CacheHash },
      payload := Payload.hash p })

/-- `EventProducer::pass_through_events`: fan out enrichment events directly
to the Consumer channel, bypassing the ordered pipe: hash events for
Execve/ExecveScript and MmapExec, and a Correlation event for TaskSched. -/
def passThrough (p : EventProducer) (e : EncodedEvent) : EventProducer :=
  match e.info.etype, e.payload with
  | EvType.Execve, Payload.execve ex interp argv cg cgErr nn =>
    { p with sent := p.sent ++ hashEventsFromExecve e ex interp argv }
  | EvType.ExecveScript, Payload.execve ex interp argv cg cgErr nn =>
    { p with sent := p.sent ++ hashEventsFromExecve e ex interp argv }
  | EvType.MmapExec, Payload.mmapExec f =>
    { p with sent := p.sent ++
      [{ info := { e.info with etype := EvType.CacheHash },
         payload := Payload.hash f }] }
  | EvType.TaskSched, Payload.correlation origin ex argv cg cgErr nn =>
    { p with sent := p.sent ++
      [{ info := { e.info with etype := EvType.Correlation },
         payload := Payload.correlation EvType.TaskSched ex argv cg cgErr nn }] }
  | _, _ => p

/-- Tail of the reader loop body: re-read the (possibly changed) event
type, drop filtered-out events and TaskSched, push the rest into the pipe. -/
def readerPush (p : EventProducer) (ev : EncodedEvent) : EventProducer :=
  if !p.filter ev.info.etype then p
  else if ev.info.etype = EvType.TaskSched then p
  else { p with pipe := p.pipe ++ [ev] }

/-- One iteration of the per-CPU reader loop body for one decoded event
(the `for buf in buffers...` body in `EventProducer::produce`): stamp the
current batch into the header, pre-process time-critical events (consumed
events go no further), fan out pass-through events, then drop filtered-out
events and TaskSched, and push the rest into the pipe. -/
def readerStep (p : EventProducer) (e0 : EncodedEvent) : EventProducer :=
  let e1 := { e0 with info := { e0.info with batch := p.batch } }
  let r := processTimeCritical p e1
  if r.consumed then r.producer
  else readerPush (passThrough r.producer r.event) r.event

/-- One Producer cycle: every reader consumes its share of the incoming
events (the readers interleave under one mutex, so a cycle is a fold of
`readerStep` over an arbitrary interleaving), then after the barrier the
reducer drains the pipe and increments the batch when it had pending
events. -/
def producerRound (p : EventProducer) (events : List EncodedEvent) : EventProducer :=
  let p2 := events.foldl readerStep p
  if p2.pipe.isEmpty then p2
  else
    let p3 := processPipedEvents p2
    { p3 with batch := p3.batch + 1 }

/-- A Producer run: successive cycles over the per-cycle interleavings. -/
def runProducer (p : EventProducer) (rounds : List (List EncodedEvent)) :
    EventProducer :=
  rounds.foldl producerRound p

/-- Invariant: no Error-typed event sits in the channel to the Consumer or
in the pipe. -/
def noErrorState (p : EventProducer) : Prop :=
  (∀ e ∈ p.sent, e.info.etype ≠ EvType.Error) ∧
  (∀ e ∈ p.pipe, e.info.etype ≠ EvType.Error)

/-! ### Concrete fixtures for witnesses and counterexamples -/

/-- A concrete process description. -/
def procW (pid tgid : Int) (flags uuid : Nat) : ProcessInfo :=
  { pid := pid, tgid := tgid, flags := flags, tg_uuid := uuid,
    parent_tgid := 1, parent_uuid := 1, mnt_namespace := some 1000 }

/-- A concrete consumer with empty state, empty engine and no IoCs. -/
def consumerW : EventConsumer :=
  { selfPid := 42, hostname := "host", hostUuid := 0, hostMountNs := 1000,
    engine := { isEmpty := true, scanEvent := fun _ _ => none },
    iocs := [], random := 7, hashCache := [], nsCache := [], tasks := [],
    resolved := [],
    procfsCgroups := fun _ => none,
    containerFromCgroups := fun _ => none,
    containerFromAncestors := fun _ => none }

/-- A concrete file-write event from a given process with a given timestamp. -/
def writeEv (pid tgid : Int) (uuid ts : Nat) : EncodedEvent :=
  { info := { etype := EvType.Write, timestamp := ts, batch := 0,
              process := procW pid tgid 0 uuid },
    payload := Payload.config "/etc/passwd" }

/-- Concrete event info for a task with tgid 10 / uuid 100. -/
def stdInfoT1 : StdEventInfo :=
  { info := { etype := EvType.DnsQuery, timestamp := 1, batch := 0,
              process := procW 10 10 0 100 },
    hostName := "host", hostUuid := 0, container := none }

/-- Concrete event info for a different task, tgid 20 / uuid 200. -/
def stdInfoT2 : StdEventInfo :=
  { info := { etype := EvType.DnsQuery, timestamp := 2, batch := 0,
              process := procW 20 20 0 200 },
    hostName := "host", hostUuid := 0, container := none }

/-- A concrete lineage record. -/
def taskW : Task :=
  { image := "/bin/sh", command_line := ["sh"], pid := 10, flags := 0,
    resolved := [], container := none, cgroups := [], nodename := none,
    parent_key := none }

/-- Consumer whose task table holds records for both fixture tasks. -/
def consumerTwoTasks : EventConsumer :=
  { consumerW with tasks :=
      [(taskKeyOf stdInfoT1.info, taskW),
       (taskKeyOf stdInfoT2.info, { taskW with pid := 20 })] }

/-- Consumer whose fixture task has a local DNS resolution for ip 8. -/
def consumerLocalW : EventConsumer :=
  { consumerW with
    tasks := [(taskKeyOf stdInfoT1.info, { taskW with resolved := [(8, "local.example")] })],
    resolved := [(8, "global.example")] }

/-- Consumer with only a global DNS resolution for ip 8. -/
def consumerGlobalW : EventConsumer :=
  { consumerW with resolved := [(8, "global.example")] }

/-- Correlation payload of an Execve event for task `/bin/x`. -/
def execveCorrW : CorrelationData :=
  { origin := EvType.Execve, exe := "/bin/x", argv := ["x", "-v"],
    cgroup := "/a", cgroupError := none, nodename := none }

/-- Event info of a correlation whose process carries PF_KTHREAD. -/
def kthreadStdInfo : StdEventInfo :=
  { info := { etype := EvType.Correlation, timestamp := 0, batch := 0,
              process := procW 9 9 0x00200000 11 },
    hostName := "host", hostUuid := 0, container := none }

/-- Event info of an ordinary (non-kernel-thread) execve. -/
def execStdInfo : StdEventInfo :=
  { info := { etype := EvType.Execve, timestamp := 0, batch := 0,
              process := procW 9 9 0 11 },
    hostName := "host", hostUuid := 0, container := none }

/-- A one-record task table whose single task is its own parent: the
parent-key relation has a cycle, which the spec asserts cannot arise but
`get_ancestors` must defend against. -/
def cycKey : TaskKey := { tgid := 5, uuid := 5 }

/-- The self-parenting record of the cyclic table. -/
def cycTask : Task :=
  { image := "/loop", command_line := [], pid := 5, flags := 0, resolved := [],
    container := none, cgroups := [], nodename := none, parent_key := some cycKey }

/-- A concrete Error event. -/
def errorEv : EncodedEvent :=
  { info := { etype := EvType.Error, timestamp := 3, batch := 0,
              process := procW 1 1 0 1 },
    payload := Payload.errorEv ErrLevel.Warn }

/-- Producer state whose pipe holds exactly one event stamped with the
current batch (0). -/
def producerOneCurrent : EventProducer :=
  { batch := 0, pipe := [writeEv 3 3 9 100], sent := [],
    filter := fun _ => true, stop := false, reload := false }

end Kunai

namespace Kunai

/-! ### C7 — ring page count -/

/-- C7 counterexample: at `page_size = 4096`, `max_event_size = 4096`,
`n_events = 5` the required page count is `c = 5`; the source computes
`2^(⌊log2 5⌋ + 1) = 8` while the claimed ceiling formula
`2^(⌈log2 5⌉ + 1)` gives 16, so the claim as stated is false. -/
theorem optimal_page_count_not_ceiling_formula :
    optimal_page_count 4096 4096 5 = 8 ∧ specOptimalPageCount 4096 4096 5 = 16 := by
  have hc : (4096 * 5 / 4096 : Nat) = 5 := by norm_num
  have hlog : Nat.log2 5 = 2 := by
    rw [Nat.log2_eq_log_two]
    exact Nat.log_eq_of_pow_le_of_lt_pow (by norm_num) (by norm_num)
  have hclog : Nat.clog 2 5 = 3 := by
    have h1 : Nat.clog 2 5 ≤ 3 :=
      (Nat.le_pow_iff_clog_le (by norm_num)).mp (by norm_num)
    have h2 : ¬ Nat.clog 2 5 ≤ 2 := by
      intro hle
      have h3 := (Nat.le_pow_iff_clog_le (by norm_num)).mpr hle
      norm_num at h3
    omega
  constructor
  · simp [optimal_page_count, hc, hlog]
  · simp [specOptimalPageCount, hc, hclog]

/-- C7 (amended): for a positive required page count
`c = (max_event_size · n_events) / page_size`, the per-CPU ring page count
computed by `optimal_page_count` is `2^(⌊log2 c⌋ + 1)`: the least power of
two strictly greater than `c` (so `c < count ≤ 2·c`), which doubles the
requirement only when `c` is itself a power of two — not the ceiling-log2
formula then doubled. -/
theorem optimal_page_count_next_pow_two (page_size max_event_size n_events : Nat)
    (h : 0 < max_event_size * n_events / page_size) :
    max_event_size * n_events / page_size
        < optimal_page_count page_size max_event_size n_events ∧
    optimal_page_count page_size max_event_size n_events
        ≤ 2 * (max_event_size * n_events / page_size) ∧
    ∃ k, optimal_page_count page_size max_event_size n_events = 2 ^ k := by
  have e1 : optimal_page_count page_size max_event_size n_events
      = 2 ^ (Nat.log 2 (max_event_size * n_events / page_size) + 1) := by
    simp [optimal_page_count, Nat.log2_eq_log_two]
  have h1 := Nat.lt_pow_succ_log_self (show (1 : Nat) < 2 by norm_num)
    (max_event_size * n_events / page_size)
  have h2 := Nat.pow_log_le_self 2
    (show max_event_size * n_events / page_size ≠ 0 from Nat.pos_iff_ne_zero.mp h)
  refine ⟨?_, ?_, ?_⟩
  · rw [e1]
    exact h1
  · rw [e1]
    calc 2 ^ (Nat.log 2 (max_event_size * n_events / page_size) + 1)
        = 2 ^ Nat.log 2 (max_event_size * n_events / page_size) * 2 := pow_succ 2 _
      _ ≤ (max_event_size * n_events / page_size) * 2 := Nat.mul_le_mul_right 2 h2
      _ = 2 * (max_event_size * n_events / page_size) :=
          Nat.mul_comm (max_event_size * n_events / page_size) 2
  · exact ⟨Nat.log2 (max_event_size * n_events / page_size) + 1, rfl⟩

/-- C7 witness: the amended statement evaluated at
`page_size = 4096`, `max_event_size = 4096`, `n_events = 8` (so `c = 8`). -/
theorem optimal_page_count_next_pow_two_witness :
    4096 * 8 / 4096 < optimal_page_count 4096 4096 8 ∧
    optimal_page_count 4096 4096 8 ≤ 2 * (4096 * 8 / 4096) ∧
    ∃ k, optimal_page_count 4096 4096 8 = 2 ^ k :=
  optimal_page_count_next_pow_two 4096 4096 8 (by norm_num)

/-! ### C5 — IoC severity override -/

/-- C5: whenever some extracted IoC string of the event is in the loaded IoC
set, `EventConsumer::scan` returns a `ScanResult` whose severity is the
maximum severity 10 — regardless of whatever the rules engine assigned —
and whose `iocs` field is, as a set, exactly the intersection of the
event's IoC strings with the loaded set. -/
theorem scan_ioc_match_severity (c : EventConsumer) (ev : Emitted) (x : String)
    (hx : x ∈ ev.iocs) (hc : x ∈ c.iocs) :
    ∃ sr, EventConsumer.scan c ev = some sr ∧
      sr.severity = MAX_SEVERITY ∧ MAX_SEVERITY = 10 ∧
      (∀ y, y ∈ sr.iocs ↔ (y ∈ ev.iocs ∧ y ∈ c.iocs)) := by
  have hmem : x ∈ ev.iocs.filter (fun ioc => decide (ioc ∈ c.iocs)) :=
    List.mem_filter.mpr ⟨hx, by simpa using hc⟩
  have hne : (ev.iocs.filter (fun ioc => decide (ioc ∈ c.iocs))).isEmpty = false := by
    cases hv : (ev.iocs.filter (fun ioc => decide (ioc ∈ c.iocs))).isEmpty
    · rfl
    · rw [List.isEmpty_iff] at hv
      rw [hv] at hmem
      cases hmem
  have heq : EventConsumer.scan c ev = some
      { ((if !c.engine.isEmpty then c.engine.scanEvent ev.info.etype ev.iocs
          else none).getD ScanResult.default) with
        iocs := ev.iocs.filter (fun ioc => decide (ioc ∈ c.iocs)),
        severity := MAX_SEVERITY } := by
    unfold EventConsumer.scan
    simp [hne]
  refine ⟨_, heq, rfl, rfl, ?_⟩
  intro y
  simp [List.mem_filter]

/-- C5 witness: one loaded IoC, one matching event. -/
theorem scan_ioc_match_severity_witness :
    ∃ sr, EventConsumer.scan { consumerW with iocs := ["bad.example"] }
        { info := (writeEv 42 42 7 1).info,
          data := EmittedData.genericOut "?" "?" "?",
          iocs := ["bad.example"], detection := none } = some sr ∧
      sr.severity = MAX_SEVERITY ∧ MAX_SEVERITY = 10 ∧
      (∀ y, y ∈ sr.iocs ↔
        (y ∈ ({ info := (writeEv 42 42 7 1).info,
                data := EmittedData.genericOut "?" "?" "?",
                iocs := ["bad.example"], detection := none } : Emitted).iocs ∧
         y ∈ ({ consumerW with iocs := ["bad.example"] } : EventConsumer).iocs)) :=
  scan_ioc_match_severity { consumerW with iocs := ["bad.example"] }
    { info := (writeEv 42 42 7 1).info, data := EmittedData.genericOut "?" "?" "?",
      iocs := ["bad.example"], detection := none }
    "bad.example" (by simp) (by simp)

/-! ### C10 — update_resolved with an absent task key -/

/-- C10: when the event's task key is absent from the task table,
`update_resolved` leaves the task table entirely unchanged (no record is
created) while still updating the global resolved map, so a later
`get_resolved` for the same key falls back to the globally recorded name
instead of `?`. -/
theorem update_resolved_absent_key_frame (c : EventConsumer) (ip : IpAddr)
    (name : String) (i : StdEventInfo)
    (h : Mp.find c.tasks (taskKeyOf i.info) = none) :
    (update_resolved c ip name i).tasks = c.tasks ∧
    Mp.find (update_resolved c ip name i).resolved ip = some name ∧
    get_resolved (update_resolved c ip name i) ip i = name := by
  have ht : (update_resolved c ip name i).tasks = c.tasks := by
    simp [update_resolved, Mp.modify_absent _ _ _ h]
  refine ⟨ht, ?_, ?_⟩
  · simp [update_resolved, Mp.find_put_self]
  · simp [get_resolved, update_resolved, Mp.modify_absent _ _ _ h, h,
      Mp.find_put_self]

/-- C10 witness: empty task table, one update, one lookup. -/
theorem update_resolved_absent_key_frame_witness :
    (update_resolved consumerW 8 "example.com" stdInfoT1).tasks = consumerW.tasks ∧
    Mp.find (update_resolved consumerW 8 "example.com" stdInfoT1).resolved 8
      = some "example.com" ∧
    get_resolved (update_resolved consumerW 8 "example.com" stdInfoT1) 8 stdInfoT1
      = "example.com" :=
  update_resolved_absent_key_frame consumerW 8 "example.com" stdInfoT1 rfl

/-! ### C6 — DNS resolution precedence -/

/-- C6 counterexample: with task T1 absent from the task table (fixture
consumer has an empty table), `update_resolved(8, "a", T1)` skips the local
write, so after `update_resolved(8, "b", T2)` the lookup
`get_resolved(8, T1)` falls back to the global map and returns `"b"`, not
`"a"` as the claim requires (T1 ≠ T2 holds at this input). -/
theorem get_resolved_overwritten_for_absent_task :
    taskKeyOf stdInfoT1.info ≠ taskKeyOf stdInfoT2.info ∧
    get_resolved (update_resolved (update_resolved consumerW 8 "a" stdInfoT1)
      8 "b" stdInfoT2) 8 stdInfoT1 = "b" ∧
    ("b" : String) ≠ "a" := by
  refine ⟨by decide, rfl, by decide⟩

/-- C6 (amended): PROVIDED the task records of both T1 and T2 are present
in the task table, `update_resolved(ip, "a", T1)` then
`update_resolved(ip, "b", T2)` with T1 ≠ T2 gives
`get_resolved(ip, T1) = "a"` and `get_resolved(ip, T2) = "b"` (when a task
is absent, its local write is skipped and the lookup falls back to the
global last write).  Moreover `get_resolved` consults the task-local map
first, then the global map, and returns `?` when neither contains the ip. -/
theorem dns_resolution_precedence :
    (∀ (c : EventConsumer) (ip : IpAddr) (a b : String) (i1 i2 : StdEventInfo)
        (t1 t2 : Task),
      taskKeyOf i1.info ≠ taskKeyOf i2.info →
      Mp.find c.tasks (taskKeyOf i1.info) = some t1 →
      Mp.find c.tasks (taskKeyOf i2.info) = some t2 →
      get_resolved (update_resolved (update_resolved c ip a i1) ip b i2) ip i1 = a ∧
      get_resolved (update_resolved (update_resolved c ip a i1) ip b i2) ip i2 = b) ∧
    (∀ (c : EventConsumer) (ip : IpAddr) (i : StdEventInfo) (t : Task) (d : String),
      Mp.find c.tasks (taskKeyOf i.info) = some t →
      Mp.find t.resolved ip = some d →
      get_resolved c ip i = d) ∧
    (∀ (c : EventConsumer) (ip : IpAddr) (i : StdEventInfo) (d : String),
      (Mp.find c.tasks (taskKeyOf i.info)).bind (fun t => Mp.find t.resolved ip)
        = none →
      Mp.find c.resolved ip = some d →
      get_resolved c ip i = d) ∧
    (∀ (c : EventConsumer) (ip : IpAddr) (i : StdEventInfo),
      (Mp.find c.tasks (taskKeyOf i.info)).bind (fun t => Mp.find t.resolved ip)
        = none →
      Mp.find c.resolved ip = none →
      get_resolved c ip i = "?") := by
  refine ⟨?_, ?_, ?_, ?_⟩
  · intro c ip a b i1 i2 t1 t2 hne h1 h2
    have e1 : Mp.find (update_resolved c ip a i1).tasks (taskKeyOf i1.info)
        = some { t1 with resolved := Mp.put t1.resolved ip a } := by
      simp only [update_resolved]
      exact Mp.find_modify_self _ _ _ _ h1
    have e12 : Mp.find (update_resolved c ip a i1).tasks (taskKeyOf i2.info)
        = some t2 := by
      simp only [update_resolved]
      rw [Mp.find_modify_ne _ _ _ _ hne]
      exact h2
    have e2 : Mp.find (update_resolved (update_resolved c ip a i1) ip b i2).tasks
        (taskKeyOf i1.info) = some { t1 with resolved := Mp.put t1.resolved ip a } := by
      simp only [update_resolved]
      rw [Mp.find_modify_ne _ _ _ _ (Ne.symm hne)]
      exact e1
    have e22 : Mp.find (update_resolved (update_resolved c ip a i1) ip b i2).tasks
        (taskKeyOf i2.info) = some { t2 with resolved := Mp.put t2.resolved ip b } := by
      simp only [update_resolved]
      exact Mp.find_modify_self _ _ _ _ e12
    constructor
    · simp [get_resolved, e2, Mp.find_put_self]
    · simp [get_resolved, e22, Mp.find_put_self]
  · intro c ip i t d h1 h2
    simp [get_resolved, h1, h2]
  · intro c ip i d h1 h2
    simp [get_resolved, h1, h2]
  · intro c ip i h1 h2
    simp [get_resolved, h1, h2]

/-- C6 witness: the four amended clauses evaluated on concrete consumers. -/
theorem dns_resolution_precedence_witness :
    (get_resolved (update_resolved (update_resolved consumerTwoTasks 8 "a" stdInfoT1)
        8 "b" stdInfoT2) 8 stdInfoT1 = "a" ∧
     get_resolved (update_resolved (update_resolved consumerTwoTasks 8 "a" stdInfoT1)
        8 "b" stdInfoT2) 8 stdInfoT2 = "b") ∧
    get_resolved consumerLocalW 8 stdInfoT1 = "local.example" ∧
    get_resolved consumerGlobalW 8 stdInfoT1 = "global.example" ∧
    get_resolved consumerW 8 stdInfoT1 = "?" :=
  ⟨dns_resolution_precedence.1 consumerTwoTasks 8 "a" "b" stdInfoT1 stdInfoT2
      taskW { taskW with pid := 20 } (by decide) (by decide) (by decide),
   dns_resolution_precedence.2.1 consumerLocalW 8 stdInfoT1
      { taskW with resolved := [(8, "local.example")] } "local.example"
      (by decide) (by decide),
   dns_resolution_precedence.2.2.1 consumerGlobalW 8 stdInfoT1 "global.example"
      rfl rfl,
   dns_resolution_precedence.2.2.2 consumerW 8 stdInfoT1 rfl rfl⟩

/-! ### C4 — Execve correlation replaces the task record -/

/-- C4 counterexample: for a correlation whose process carries PF_KTHREAD,
the record stored under T after an Execve-origin correlation has image
`kernel`, not the event's executable path `/bin/x`. -/
theorem execve_correlation_kernel_thread_image :
    (Mp.find (handleCorrelationEvent consumerW kthreadStdInfo execveCorrW).tasks
      (taskKeyOf kthreadStdInfo.info)).map Task.image = some "kernel" ∧
    execveCorrW.exe = "/bin/x" ∧ ("kernel" : String) ≠ "/bin/x" := by
  refine ⟨rfl, rfl, by decide⟩

/-- C4 (amended): after an Execve/ExecveScript-origin correlation for task
key T, the task table holds a fresh record under T (the previous record is
removed and replaced): its `command_line` is the event's argv, its
`resolved` map is empty, pid/flags/nodename/parent come from the event, and
its `image` is the event's executable path — except that a process flagged
PF_KTHREAD gets the literal image `kernel`. -/
theorem handle_correlation_execve_replaces (c : EventConsumer) (i : StdEventInfo)
    (cd : CorrelationData)
    (h : cd.origin = EvType.Execve ∨ cd.origin = EvType.ExecveScript) :
    ∃ t, Mp.find (handleCorrelationEvent c i cd).tasks (taskKeyOf i.info) = some t ∧
      t.command_line = cd.argv ∧
      t.image = (if i.info.process.is_kernel_thread then KERNEL_IMAGE else cd.exe) ∧
      t.resolved = [] ∧
      t.pid = i.info.process.tgid ∧
      t.flags = i.info.process.flags ∧
      t.nodename = cd.nodename ∧
      t.parent_key = some (parentKeyOf i.info) := by
  simp only [handleCorrelationEvent, if_pos h, Mp.find_del_self]
  exact ⟨_, Mp.find_put_self _ _ _, rfl, rfl, rfl, rfl, rfl, rfl, rfl⟩

/-- C4 witness: a concrete Execve correlation for an ordinary process. -/
theorem handle_correlation_execve_replaces_witness :
    ∃ t, Mp.find (handleCorrelationEvent consumerW execStdInfo execveCorrW).tasks
        (taskKeyOf execStdInfo.info) = some t ∧
      t.command_line = execveCorrW.argv ∧
      t.image = (if execStdInfo.info.process.is_kernel_thread then KERNEL_IMAGE
        else execveCorrW.exe) ∧
      t.resolved = [] ∧
      t.pid = execStdInfo.info.process.tgid ∧
      t.flags = execStdInfo.info.process.flags ∧
      t.nodename = execveCorrW.nodename ∧
      t.parent_key = some (parentKeyOf execStdInfo.info) :=
  handle_correlation_execve_replaces consumerW execStdInfo execveCorrW (Or.inl rfl)

/-! ### C1 — events of the daemon's own process -/

/-- C1 (code bug): a decodable Write event whose header tgid equals the
daemon's pid (42) takes the own-process branch — the debug log
`skipping our event` is produced — yet `handle_event` still emits one JSON
line for it, because the Rust `if` body lacks a `return`. -/
theorem handle_event_emits_own_process_event :
    (handleEvent consumerW (writeEv 42 42 7 1)).logs = ["skipping our event"] ∧
    (handleEvent consumerW (writeEv 42 42 7 1)).emitted.length = 1 :=
  ⟨rfl, rfl⟩

/-! ### C2 — batch separation in process_piped_events -/

/-- C2 (code bug): with the pipe holding a single event stamped with the
CURRENT batch (0), `process_piped_events` pops and sends that event:
`find(..)` yields no previous-batch index, `.unwrap_or_default()` turns
that into index 0, and `counter = 1` pops one event — although the code's
own comment says "we should not process any event" in this situation. -/
theorem process_piped_events_pops_current_batch :
    (processPipedEvents producerOneCurrent).sent = [writeEv 3 3 9 100] ∧
    (processPipedEvents producerOneCurrent).pipe = [] ∧
    (writeEv 3 3 9 100).info.batch = producerOneCurrent.batch :=
  ⟨rfl, rfl, rfl⟩

/-! ### C9 — termination of the ancestor walk -/

/-- C9 counterexample: on a one-record table whose task is its own parent,
the `get_ancestors` loop is still running after 128 iterations (fuel 129 is
exhausted): the walk has no defensive depth bound and does not terminate
when the parent-key relation is not a forest. -/
theorem get_ancestors_unbounded_on_cycle :
    get_ancestors 129 [(cycKey, cycTask)] cycKey = none := by
  decide

/-- Helper for C9: under a rank function that strictly decreases along
parent links (the forest assumption of the spec), the ancestor walk
completes once the fuel exceeds the rank of the starting key. -/
theorem ancestorsLoop_total (tasks : List (TaskKey × Task)) (m : TaskKey → Nat)
    (hm : ∀ k t, Mp.find tasks k = some t → ∀ p, t.parent_key = some p → m p < m k) :
    ∀ (n : Nat) (k : TaskKey) (acc : List String) (last : Option Task),
      m k < n → ∃ l, ancestorsLoop n tasks k acc last = some l := by
  intro n
  induction n with
  | zero => intro k acc last h; omega
  | succ n ih =>
    intro k acc last h
    cases hf : Mp.find tasks k with
    | none => exact ⟨finishAncestors acc last, by simp [ancestorsLoop, hf]⟩
    | some task =>
      cases hp : task.parent_key with
      | none =>
        exact ⟨finishAncestors (task.image :: acc) (some task),
          by simp [ancestorsLoop, hf, hp]⟩
      | some p =>
        have h2 := hm k task hf p hp
        have h3 : m p < n := by omega
        obtain ⟨l, hl⟩ := ih p (task.image :: acc) (some task) h3
        exact ⟨l, by simp [ancestorsLoop, hf, hp, hl]⟩

/-- C9 (amended): `get_ancestors` stops at the first missing parent, and on
a forest-shaped table — one admitting a rank function that decreases along
`parent_key` links, as the spec assumes — the walk terminates within
rank + 1 steps.  The walk has NO defensive 128-depth bound: on a cyclic
table it never stops (see the counterexample). -/
theorem get_ancestors_terminates_on_forest
    (tasks : List (TaskKey × Task)) (m : TaskKey → Nat)
    (hm : ∀ k t, Mp.find tasks k = some t → ∀ p, t.parent_key = some p → m p < m k)
    (k : TaskKey) :
    (∃ l, get_ancestors (m k + 1) tasks k = some l) ∧
    (Mp.find tasks k = none → get_ancestors (m k + 1) tasks k = some []) := by
  constructor
  · exact ancestorsLoop_total tasks m hm (m k + 1) k [] none (Nat.lt_succ_self _)
  · intro hf
    simp [get_ancestors, ancestorsLoop, hf, finishAncestors]

/-- C9 witness: the empty table with the zero rank function. -/
theorem get_ancestors_terminates_on_forest_witness :
    (∃ l, get_ancestors (0 + 1) [] cycKey = some l) ∧
    (Mp.find ([] : List (TaskKey × Task)) cycKey = none →
      get_ancestors (0 + 1) [] cycKey = some []) :=
  get_ancestors_terminates_on_forest [] (fun _ => 0)
    (fun k t hf => nomatch hf) cycKey

/-! ### C3 — timestamp ordering of the forwarded stream -/

/-- C3 counterexample: a two-round run in which CPU readers deliver an event
of timestamp 100 in round 0 and an event of timestamp 50 in round 1.  Both
forwarded events come from batches 0..B−1 (B = 2), yet the forwarded
sequence is [100, 50] — not non-decreasing in timestamp. -/
theorem producer_run_timestamps_not_monotone :
    ((runProducer (initProducer (fun _ => true))
        [[writeEv 3 3 9 100], [writeEv 4 4 10 50]]).sent.map
      (fun e => e.info.timestamp)) = [100, 50] ∧
    ¬ List.Sorted tsLe (runProducer (initProducer (fun _ => true))
        [[writeEv 3 3 9 100], [writeEv 4 4 10 50]]).sent ∧
    (∀ e ∈ (runProducer (initProducer (fun _ => true))
        [[writeEv 3 3 9 100], [writeEv 4 4 10 50]]).sent,
      e.info.batch < (runProducer (initProducer (fun _ => true))
        [[writeEv 3 3 9 100], [writeEv 4 4 10 50]]).batch) := by
  refine ⟨by decide, by decide, by decide⟩

/-- C3 (amended): at each invocation, `process_piped_events` sorts the pipe
ascending by timestamp before popping anything, and the chunk it forwards
is a sorted prefix of that sorted pipe — so WITHIN one invocation events
are forwarded in non-decreasing timestamp order.  Across batches, however,
the forwarded stream need not be globally non-decreasing under arbitrary
reader interleavings (see the counterexample). -/
theorem process_piped_events_sorted_drain (p : EventProducer) :
    ∃ k, List.Sorted tsLe (sortPipe p.pipe) ∧
      List.Perm (sortPipe p.pipe) p.pipe ∧
      (processPipedEvents p).sent = p.sent ++ (sortPipe p.pipe).take k ∧
      (processPipedEvents p).pipe = (sortPipe p.pipe).drop k ∧
      List.Sorted tsLe ((sortPipe p.pipe).take k) := by
  have hsort : List.Sorted tsLe (sortPipe p.pipe) :=
    List.sorted_insertionSort tsLe p.pipe
  have hperm : List.Perm (sortPipe p.pipe) p.pipe :=
    List.perm_insertionSort tsLe p.pipe
  by_cases h : p.pipe.isEmpty
  · have hnil : p.pipe = [] := List.isEmpty_iff.mp h
    refine ⟨0, hsort, hperm, ?_, ?_, ?_⟩
    · simp [processPipedEvents, h]
    · simp only [processPipedEvents, h, if_true, List.drop_zero]
      rw [hnil]
      rfl
    · exact List.Pairwise.sublist (List.take_sublist 0 _) hsort
  · refine ⟨(lastOtherBatchIdx (sortPipe p.pipe) p.batch).getD 0 + 1, hsort, hperm,
      ?_, ?_, ?_⟩
    · simp [processPipedEvents, h]
    · simp [processPipedEvents, h]
    · exact List.Pairwise.sublist (List.take_sublist _ _) hsort

/-! ### C8 — Error events never reach the Consumer -/

/-- Helper: `process_time_critical` leaves sent, pipe and filter untouched,
can only relabel the event type Execve → ExecveScript, and always consumes
Error events. -/
theorem ptc_props (p : EventProducer) (e : EncodedEvent) :
    (processTimeCritical p e).producer.sent = p.sent ∧
    (processTimeCritical p e).producer.pipe = p.pipe ∧
    (processTimeCritical p e).producer.filter = p.filter ∧
    ((processTimeCritical p e).event.info.etype = EvType.Error →
      e.info.etype = EvType.Error) ∧
    (e.info.etype = EvType.Error → (processTimeCritical p e).consumed = true) := by
  rcases e with ⟨⟨ety, ts, b, pr⟩, pl⟩
  cases ety <;> cases pl <;>
    first
      | (simp [processTimeCritical]; done)
      | (simp only [processTimeCritical]
         split <;> simp)

/-- Helper: events appended to the channel by `pass_through_events` are
CacheHash or Correlation events. -/
theorem passThrough_sent_mem (q : EventProducer) (ev : EncodedEvent)
    (x : EncodedEvent) (hx : x ∈ (passThrough q ev).sent) :
    x ∈ q.sent ∨ x.info.etype = EvType.CacheHash ∨
      x.info.etype = EvType.Correlation := by
  rcases ev with ⟨⟨ety, ts, b, pr⟩, pl⟩
  cases ety <;> cases pl <;>
    first
      | exact Or.inl hx
      | (rcases List.mem_append.mp hx with h1 | h2
         · exact Or.inl h1
         · right
           simp only [hashEventsFromExecve, List.mem_map, List.mem_singleton] at h2
           obtain ⟨a, ha, rfl⟩ := h2
           simp)

/-- Helper: `pass_through_events` does not touch the pipe or the filter. -/
theorem passThrough_pipe_filter (q : EventProducer) (ev : EncodedEvent) :
    (passThrough q ev).pipe = q.pipe ∧ (passThrough q ev).filter = q.filter := by
  rcases ev with ⟨⟨ety, ts, b, pr⟩, pl⟩
  cases ety <;> cases pl <;> simp [passThrough]

/-- Helper: the push tail of the reader loop preserves the no-Error
invariant when the pushed event is not an Error event. -/
theorem readerPush_noError (q : EventProducer) (ev : EncodedEvent)
    (h : noErrorState q) (hev : ev.info.etype ≠ EvType.Error) :
    noErrorState (readerPush q ev) := by
  obtain ⟨hs, hp⟩ := h
  unfold readerPush
  split
  · exact ⟨hs, hp⟩
  · split
    · exact ⟨hs, hp⟩
    · refine ⟨hs, fun x hx => ?_⟩
      rcases List.mem_append.mp hx with h1 | h2
      · exact hp x h1
      · rcases List.mem_singleton.mp h2 with rfl
        exact hev

/-- Helper: `pass_through_events` preserves the no-Error invariant. -/
theorem passThrough_noError (q : EventProducer) (ev : EncodedEvent)
    (h : noErrorState q) : noErrorState (passThrough q ev) := by
  refine ⟨fun x hx => ?_, fun x hx => ?_⟩
  · rcases passThrough_sent_mem q ev x hx with h1 | h2 | h3
    · exact h.1 x h1
    · rw [h2]
      exact fun hc => nomatch hc
    · rw [h3]
      exact fun hc => nomatch hc
  · exact h.2 x ((passThrough_pipe_filter q ev).1 ▸ hx)

/-- Helper: one reader-loop iteration preserves the no-Error invariant:
Error events are consumed by `process_time_critical` and never pushed. -/
theorem readerStep_noError (p : EventProducer) (e0 : EncodedEvent)
    (h : noErrorState p) : noErrorState (readerStep p e0) := by
  obtain ⟨f1, f2, f3, f4, f5⟩ :=
    ptc_props p { e0 with info := { e0.info with batch := p.batch } }
  have hErr : noErrorState
      (processTimeCritical p { e0 with info := { e0.info with batch := p.batch } }).producer :=
    ⟨fun x hx => h.1 x (f1 ▸ hx), fun x hx => h.2 x (f2 ▸ hx)⟩
  simp only [readerStep]
  split
  · exact hErr
  · rename_i hns
    apply readerPush_noError
    · exact passThrough_noError _ _ hErr
    · intro he
      exact hns (f5 (f4 he))

/-- Helper: the reducer drain preserves the no-Error invariant (everything
it forwards comes from the pipe). -/
theorem processPipedEvents_noError (p : EventProducer) (h : noErrorState p) :
    noErrorState (processPipedEvents p) := by
  obtain ⟨hs, hp⟩ := h
  by_cases he : p.pipe.isEmpty
  · simpa [processPipedEvents, he] using And.intro hs hp
  · have hperm := List.perm_insertionSort tsLe p.pipe
    have hmem : ∀ x ∈ sortPipe p.pipe, x ∈ p.pipe := fun x hx => hperm.mem_iff.mp hx
    constructor
    · intro x hx
      simp only [processPipedEvents, he, if_false, Bool.false_eq_true] at hx
      rcases List.mem_append.mp hx with h1 | h2
      · exact hs x h1
      · exact hp x (hmem x (List.mem_of_mem_take h2))
    · intro x hx
      simp only [processPipedEvents, he, if_false, Bool.false_eq_true] at hx
      exact hp x (hmem x (List.mem_of_mem_drop hx))

/-- Helper: folding the reader loop preserves the no-Error invariant. -/
theorem foldl_readerStep_noError (events : List EncodedEvent) :
    ∀ p, noErrorState p → noErrorState (events.foldl readerStep p) := by
  induction events with
  | nil => exact fun p h => h
  | cons e t ih => exact fun p h => ih _ (readerStep_noError p e h)

/-- Helper: a full Producer cycle preserves the no-Error invariant. -/
theorem producerRound_noError (p : EventProducer) (events : List EncodedEvent)
    (h : noErrorState p) : noErrorState (producerRound p events) := by
  have h2 := foldl_readerStep_noError events p h
  simp only [producerRound]
  split
  · exact h2
  · have h3 := processPipedEvents_noError _ h2
    exact ⟨h3.1, h3.2⟩

/-- Helper: every Producer run from a fresh producer keeps the channel free
of Error events. -/
theorem runProducer_noError (f : EvType → Bool) (rounds : List (List EncodedEvent)) :
    noErrorState (runProducer (initProducer f) rounds) := by
  have key : ∀ (rs : List (List EncodedEvent)) (p : EventProducer),
      noErrorState p → noErrorState (runProducer p rs) := by
    intro rs
    induction rs with
    | nil => exact fun p h => h
    | cons r t ih => exact fun p h => ih _ (producerRound_noError p r h)
  refine key rounds _ ⟨?_, ?_⟩
  · intro x hx
    simp [initProducer] at hx
  · intro x hx
    simp [initProducer] at hx

/-- Helper: `handle_event` only panics on Error-typed events. -/
theorem handleEvent_no_panic (c : EventConsumer) (e : EncodedEvent)
    (h : e.info.etype ≠ EvType.Error) : (handleEvent c e).panicked = false := by
  rcases e with ⟨⟨ety, ts, b, pr⟩, pl⟩
  cases ety <;> cases pl <;>
    first
      | rfl
      | exact absurd rfl h

/-- C8: Error events are consumed inside the Producer's reader
(`process_time_critical` returns true for them after logging), so no event
of type Error is ever sent on the channel of any Producer run, and the
Consumer's Error branch — a panic — is unreachable on channel events. -/
theorem error_events_filtered_before_consumer :
    (∀ (p : EventProducer) (e : EncodedEvent), e.info.etype = EvType.Error →
      (processTimeCritical p e).consumed = true) ∧
    (∀ (f : EvType → Bool) (rounds : List (List EncodedEvent)) (e : EncodedEvent),
      e ∈ (runProducer (initProducer f) rounds).sent →
      e.info.etype ≠ EvType.Error) ∧
    (∀ (c : EventConsumer) (e : EncodedEvent), e.info.etype ≠ EvType.Error →
      (handleEvent c e).panicked = false) :=
  ⟨fun p e he => (ptc_props p e).2.2.2.2 he,
   fun f rounds e he => (runProducer_noError f rounds).1 e he,
   fun c e he => handleEvent_no_panic c e he⟩

/-- C8 witness: a concrete Error event is consumed by the reader; a
concrete one-round run with an Error event and a Write event forwards only
the Write event, which does not panic the Consumer. -/
theorem error_events_filtered_before_consumer_witness :
    (processTimeCritical (initProducer (fun _ => true)) errorEv).consumed = true ∧
    (writeEv 3 3 9 100).info.etype ≠ EvType.Error ∧
    (handleEvent consumerW (writeEv 3 3 9 100)).panicked = false :=
  ⟨error_events_filtered_before_consumer.1 (initProducer (fun _ => true)) errorEv rfl,
   error_events_filtered_before_consumer.2.1 (fun _ => true)
     [[errorEv, writeEv 3 3 9 100]] (writeEv 3 3 9 100) (by decide),
   error_events_filtered_before_consumer.2.2 consumerW (writeEv 3 3 9 100)
     (by decide)⟩

end Kunai
